import Mathlib

/-!
Verification of the product-information extractor (`app.py`).

The HTML tree produced by the markup-parser collaborator is modelled as the
list of its elements in document (pre-order) order; `get_text()` of an element
is modelled by its `text` field (the concatenated text of its subtree).
External library collaborators (the HTTP fetcher, `json.loads`,
`urllib.parse.urljoin`) are passed to the engine as function parameters.
-/

/-- An element of the parsed tree: tag name, attributes, concatenated text. -/
structure Element where
  name : String
  attrs : List (String × String)
  text : String
deriving DecidableEq, Repr

/-- `element.get(key)`: first binding of the attribute, `none` when absent. -/
def attrLookup (e : Element) (k : String) : Option String :=
  List.lookup k e.attrs

/-- `sub` occurs at the head of `s`. -/
def leadMatch : List Char → List Char → Bool
  | [], _ => true
  | _ :: _, [] => false
  | l :: ls, c :: cs => l == c && leadMatch ls cs

/-- `sub` occurs somewhere in `s`. -/
def containsAt : List Char → List Char → Bool
  | sub, [] => leadMatch sub []
  | sub, c :: cs => leadMatch sub (c :: cs) || containsAt sub cs

/-- Python's `sub in s` substring test (case-sensitive). -/
def pyContains (s sub : String) : Bool :=
  containsAt sub.toList s.toList

/-- `re.compile(r'price', re.I).search(v)` succeeds: case-insensitive substring. -/
def containsPriceCI (v : String) : Bool :=
  containsAt "price".toList (v.toList.map Char.toLower)

/-- Python's `\s` / `str.strip()` whitespace over ASCII. -/
def isPySpace (c : Char) : Bool :=
  c = ' ' || c = '\t' || c = '\n' || c = '\r' || c = '\x0b' || c = '\x0c'

/-- Python's `str.strip()`. -/
def pyStrip (s : String) : String :=
  String.mk (((s.toList.dropWhile isPySpace).reverse.dropWhile isPySpace).reverse)

/-- `soup.find('meta', property=v)`: a `<meta>` whose `property` attribute equals `v`. -/
def metaPropIs (v : String) (e : Element) : Bool :=
  e.name == "meta" && attrLookup e "property" == some v

/-- `soup.find('meta', attrs={'name': v})`. -/
def metaNameIs (v : String) (e : Element) : Bool :=
  e.name == "meta" && attrLookup e "name" == some v

/-- `tag and tag.get('content')`: the found `<meta property=prop>` carrying a
truthy `content` attribute, returning that content. -/
def ogContent (prop : String) (soup : List Element) : Option String :=
  match List.find? (metaPropIs prop) soup with
  | some e =>
    match attrLookup e "content" with
    | some c => if c = "" then none else some c
    | none => none
  | none => none

/-- Same guard for `soup.find('meta', attrs={'name': nm})`. -/
def metaNameContent (nm : String) (soup : List Element) : Option String :=
  match List.find? (metaNameIs nm) soup with
  | some e =>
    match attrLookup e "content" with
    | some c => if c = "" then none else some c
    | none => none
  | none => none

/-- Title resolver (`app.py` lines 53-64): `og:title` content when truthy, else a
present `<title>`'s stripped text (even when empty), else the first `<h1>`'s. -/
def extractTitle (soup : List Element) : Option String :=
  match ogContent "og:title" soup with
  | some c => some c
  | none =>
    match List.find? (fun e => e.name == "title") soup with
    | some t => some (pyStrip t.text)
    | none =>
      match List.find? (fun e => e.name == "h1") soup with
      | some h => some (pyStrip h.text)
      | none => none

/-- The `<img>` filter: truthy `src` not containing `icon`, `logo` or `sprite`. -/
def imgFilter (e : Element) : Bool :=
  match attrLookup e "src" with
  | some s => s != "" && !(pyContains s "icon") && !(pyContains s "logo") && !(pyContains s "sprite")
  | none => false

/-- `large_images[0].get('src')` resolved with `urljoin(url, img_src)`;
`uj` is the `urllib.parse.urljoin` collaborator. -/
def imageFromImgs (uj : String → String → String) (url : String) (soup : List Element) : Option String :=
  let images := List.filter (fun e => e.name == "img") soup
  match List.filter imgFilter images with
  | [] => none
  | i :: _ => (attrLookup i "src").map (fun s => uj url s)

/-- Image resolver (`app.py` lines 34-51): `og:image` content verbatim, else
`twitter:image` content verbatim, else the first filtered `<img>` src resolved
against the request URL. -/
def extractImage (uj : String → String → String) (url : String) (soup : List Element) : Option String :=
  match ogContent "og:image" soup with
  | some c => some c
  | none =>
    match metaNameContent "twitter:image" soup with
    | some c => some c
    | none => imageFromImgs uj url soup

/-- Python slicing `s[:n]` over code points. -/
def pyTruncate (s : String) (n : Nat) : String :=
  String.mk (s.toList.take n)

/-- `soup.find(itemprop='description')`. -/
def itempropDescIs (e : Element) : Bool :=
  attrLookup e "itemprop" == some "description"

/-- Description resolver (`app.py` lines 127-138): `og:description` content,
else `description` meta content, else the `itemprop="description"` element's
stripped text truncated to 500 characters. -/
def extractDescription (soup : List Element) : Option String :=
  match ogContent "og:description" soup with
  | some c => some c
  | none =>
    match metaNameContent "description" soup with
    | some c => some c
    | none =>
      match List.find? itempropDescIs soup with
      | some d => some (pyTruncate (pyStrip d.text) 500)
      | none => none

/-- Values produced by the `json.loads` collaborator.  Numbers carry the string
Python's `str()` would print for them (e.g. `12.5`), since only that rendering
is observed by the engine's f-string formatting. -/
inductive Json where
  | null
  | bool (b : Bool)
  | num (rendered : String)
  | str (s : String)
  | arr (xs : List Json)
  | obj (fields : List (String × Json))
deriving Repr

/-- Python `str()` of a JSON value as used in `f"$\x7b...\x7d"`.  Containers are
abbreviated; the engine's claims never format a container. -/
def jstr : Json → String
  | .null => "None"
  | .bool true => "True"
  | .bool false => "False"
  | .num r => r
  | .str s => s
  | .arr _ => "<list>"
  | .obj _ => "<dict>"

/-- `if isinstance(data, list): data = data[0]` with `IndexError` on an empty
list escaping to the block's `except`. -/
def headJson : Json → Option Json
  | .arr [] => none
  | .arr (x :: _) => some x
  | x => some x

/-- One JSON-LD block's attempt (`app.py` lines 71-85): the input is the parse
outcome of the block's text (`none` = `json.loads` raised).  Every exception
path inside the `try` (`IndexError`, `TypeError` from `'offers' in data` or
from indexing a non-dict) yields `none`, as does a block without a usable
`offers`/`price`. -/
def evalBlock : Option Json → Option String
  | none => none
  | some d =>
    match headJson d with
    | some (.obj fields) =>
      match List.lookup "offers" fields with
      | some (.obj ofields) => (List.lookup "price" ofields).map (fun p => "$" ++ jstr p)
      | some (.arr (Json.obj f1 :: _)) => (List.lookup "price" f1).map (fun p => "$" ++ jstr p)
      | _ => none
    | _ => none

/-- First `some` of a list, mirroring a loop that `break`s on assignment. -/
def firstSome {α : Type} : List (Option α) → Option α
  | [] => none
  | some x :: _ => some x
  | none :: rest => firstSome rest

/-- `soup.find_all('script', type='application/ld+json')` in document order. -/
def scriptBlocks (soup : List Element) : List Element :=
  List.filter (fun e => e.name == "script" && attrLookup e "type" == some "application/ld+json") soup

/-- Price Method 1 over an explicit block list; `pj` is `json.loads`. -/
def method1Blocks (pj : String → Option Json) (blocks : List Element) : Option String :=
  firstSome (blocks.map (fun s => evalBlock (pj s.text)))

/-- Price Method 1 (`app.py` lines 68-85): JSON-LD structured data. -/
def method1 (pj : String → Option Json) (soup : List Element) : Option String :=
  method1Blocks pj (scriptBlocks soup)

/-- Price Method 2 (`app.py` lines 88-91): `product:price:amount` meta content. -/
def method2 (soup : List Element) : Option String :=
  (ogContent "product:price:amount" soup).map (fun c => "$" ++ c)

/-- Character classes occurring in the source's regular expressions.  `\d` and
`\s` are taken over ASCII, the only range the heuristics exercise. -/
inductive CharCls where
  | digit
  | space
  | dot
  | commaDot
  | quote
  | dollar
  | currency
deriving DecidableEq, Repr

def CharCls.test : CharCls → Char → Bool
  | .digit, c => c.isDigit
  | .space, c => isPySpace c
  | .dot, c => c = '.'
  | .commaDot, c => c = ',' || c = '.'
  | .quote, c => c = '\"'
  | .dollar, c => c = '$'
  | .currency, c => c = '$' || c = '€' || c = '£'

inductive Quant where
  | one
  | opt
  | star
  | plus
deriving DecidableEq, Repr

/-- One piece of a pattern: a literal or a quantified character class. -/
inductive Piece where
  | lit (s : String)
  | cls (c : CharCls) (q : Quant)
deriving Repr

/-- Match a literal at the head of the input, returning the remainder. -/
def litAt : List Char → List Char → Option (List Char)
  | [], s => some s
  | _ :: _, [] => none
  | l :: ls, c :: cs => if l = c then litAt ls cs else none

/-- Split off the maximal run of characters satisfying `t`. -/
def runSplit (t : Char → Bool) : List Char → List Char × List Char
  | [] => ([], [])
  | c :: cs =>
    if t c then
      let (a, b) := runSplit t cs
      (c :: a, b)
    else ([], c :: cs)

/-- Greedy alternatives for `cls*`: consumed/rest splits, longest first. -/
def starAlts (t : Char → Bool) (s : List Char) : List (List Char × List Char) :=
  let (run, rest) := runSplit t s
  (List.range (run.length + 1)).reverse.map
    (fun k => (run.take k, run.drop k ++ rest))

/-- Alternatives (consumed, rest) of one piece, in backtracking priority order
(greedy quantifiers try the longest consumption first). -/
def pieceAlts (p : Piece) (s : List Char) : List (List Char × List Char) :=
  match p with
  | .lit l =>
    match litAt l.toList s with
    | some r => [(l.toList, r)]
    | none => []
  | .cls c q =>
    match q with
    | .one =>
      match s with
      | x :: xs => if c.test x then [([x], xs)] else []
      | [] => []
    | .opt =>
      match s with
      | x :: xs => if c.test x then [([x], xs), ([], x :: xs)] else [([], x :: xs)]
      | [] => [([], [])]
    | .star => starAlts c.test s
    | .plus => (starAlts c.test s).filter (fun a => a.1 ≠ [])

/-- Alternatives of a piece sequence, in backtracking priority order. -/
def seqAlts : List Piece → List Char → List (List Char × List Char)
  | [], s => [([], s)]
  | p :: ps, s =>
    (pieceAlts p s).flatMap
      (fun a => (seqAlts ps a.2).map (fun b => (a.1 ++ b.1, b.2)))

/-- A pattern with exactly one capture group: pieces before, inside and after
the group — the shape of all five patterns in the source. -/
structure Pattern where
  pre : List Piece
  grp : List Piece
  post : List Piece

/-- Try the pattern anchored at the head of `s`; the first alternative in
priority order wins.  Returns (whole match, group 1). -/
def matchAt (pat : Pattern) (s : List Char) : Option (String × String) :=
  ((seqAlts pat.pre s).flatMap (fun a =>
    (seqAlts pat.grp a.2).flatMap (fun b =>
      (seqAlts pat.post b.2).map (fun c =>
        (String.mk (a.1 ++ b.1 ++ c.1), String.mk b.1))))).head?

/-- `re.search`: scan start positions left to right. -/
def searchChars (pat : Pattern) : List Char → Option (String × String)
  | [] => matchAt pat []
  | c :: rest =>
    match matchAt pat (c :: rest) with
    | some m => some m
    | none => searchChars pat rest

def reSearch (pat : Pattern) (s : String) : Option (String × String) :=
  searchChars pat s.toList

/-- The group `(\d+\.?\d*)` shared by the four raw-text patterns. -/
def numGrp : List Piece :=
  [.cls .digit .plus, .cls .dot .opt, .cls .digit .star]

/-- `"price":\s*\x7b\s*"current":\s*(\d+\.?\d*)` -/
def pat1 : Pattern :=
  ⟨[.lit "\"price\":", .cls .space .star, .lit "\x7b", .cls .space .star,
    .lit "\"current\":", .cls .space .star], numGrp, []⟩

/-- `"currentPrice":\s*(\d+\.?\d*)` -/
def pat2 : Pattern :=
  ⟨[.lit "\"currentPrice\":", .cls .space .star], numGrp, []⟩

/-- `"price":\s*(\d+\.?\d*)` -/
def pat3 : Pattern :=
  ⟨[.lit "\"price\":", .cls .space .star], numGrp, []⟩

/-- `price":\s*"?\$?(\d+\.?\d*)"?` -/
def pat4 : Pattern :=
  ⟨[.lit "price\":", .cls .space .star, .cls .quote .opt, .cls .dollar .opt],
   numGrp, [.cls .quote .opt]⟩

/-- `[\$€£]?\s*(\d+[,.]?\d*\.?\d*)` (Method 4's pattern). -/
def pat5 : Pattern :=
  ⟨[.cls .currency .opt, .cls .space .star],
   [.cls .digit .plus, .cls .commaDot .opt, .cls .digit .star, .cls .dot .opt, .cls .digit .star],
   []⟩

/-- Price Method 3 (`app.py` lines 93-106): the four patterns in order against
the raw response text, `"$" + match.group(1)` of the first that matches. -/
def method3 (text : String) : Option String :=
  firstSome ([pat1, pat2, pat3, pat4].map
    (fun p => (reSearch p text).map (fun m => "$" ++ m.2)))

/-- `soup.find('span', itemprop='price')`. -/
def spanItempropPrice (e : Element) : Bool :=
  e.name == "span" && attrLookup e "itemprop" == some "price"

/-- `soup.find('meta', itemprop='price')`. -/
def metaItempropPrice (e : Element) : Bool :=
  e.name == "meta" && attrLookup e "itemprop" == some "price"

/-- `soup.find('span', {'data-test': re.compile(r'price', re.I)})`. -/
def spanDataTestPrice (e : Element) : Bool :=
  e.name == "span" &&
    (match attrLookup e "data-test" with
     | some v => containsPriceCI v
     | none => false)

/-- `soup.find(class_=re.compile(r'price', re.I))`: any tag whose class value
matches.  The class attribute is modelled as its space-joined string; for the
whitespace-free pattern `price` this agrees with matching each class token. -/
def anyClassPrice (e : Element) : Bool :=
  match attrLookup e "class" with
  | some v => containsPriceCI v
  | none => false

/-- `soup.find('span', class_=re.compile(r'price', re.I))`. -/
def spanClassPrice (e : Element) : Bool :=
  e.name == "span" && anyClassPrice e

/-- `price_elem.get('content') if price_elem.name == 'meta' else price_elem.get_text()`. -/
def m4text (e : Element) : Option String :=
  if e.name == "meta" then attrLookup e "content" else some e.text

/-- Method 4's loop (`app.py` lines 118-125) over the five pre-computed `find`
results: a found element whose text is falsy or does not match the pattern is
passed over (the `break` fires only on a successful match). -/
def m4loop : List (Option Element) → Option String
  | [] => none
  | none :: rest => m4loop rest
  | some e :: rest =>
    match m4text e with
    | some t =>
      if t = "" then m4loop rest
      else
        match reSearch pat5 t with
        | some m => some (pyStrip m.1)
        | none => m4loop rest
    | none => m4loop rest

/-- Price Method 4 (`app.py` lines 108-125): the five selector candidates in
their fixed order. -/
def method4 (soup : List Element) : Option String :=
  m4loop
    [List.find? spanItempropPrice soup,
     List.find? metaItempropPrice soup,
     List.find? spanDataTestPrice soup,
     List.find? anyClassPrice soup,
     List.find? spanClassPrice soup]

/-- Price resolver (`app.py` lines 66-125): the four methods strictly in order.
Every value a method assigns is a non-empty string, so the source's
`if not product_info['price']` guards coincide with this option chain. -/
def extractPrice (pj : String → Option Json) (soup : List Element) (text : String) : Option String :=
  match method1 pj soup with
  | some p => some p
  | none =>
    match method2 soup with
    | some p => some p
    | none =>
      match method3 text with
      | some p => some p
      | none => method4 soup

/-- The record assembled by the engine (`product_info`). -/
structure ProductInfo where
  image : Option String
  title : Option String
  price : Option String
  description : Option String
  url : String
deriving DecidableEq, Repr

/-- What the fetch collaborator delivers: the final HTTP status, the tree the
markup parser builds from `response.content`, and `response.text`. -/
structure Response where
  status : Nat
  soup : List Element
  text : String

/-- `extract_product_info` (`app.py` lines 10-143).  `fetch url = none` models a
network error or timeout raised by `requests.get`; `response.raise_for_status()`
raises exactly for statuses 400-599.  Any such exception is swallowed and the
function returns `none`; otherwise all four resolvers run and a full record
carrying the input URL is returned. -/
def extract_product_info (fetch : String → Option Response)
    (pj : String → Option Json) (uj : String → String → String)
    (url : String) : Option ProductInfo :=
  match fetch url with
  | none => none
  | some resp =>
    if 400 ≤ resp.status ∧ resp.status < 600 then none
    else
      some { image := extractImage uj url resp.soup
             title := extractTitle resp.soup
             price := extractPrice pj resp.soup resp.text
             description := extractDescription resp.soup
             url := url }

/-- Truthiness of an optional string field (`None` and `''` are falsy). -/
def truthyOpt : Option String → Bool
  | some s => s != ""
  | none => false

/-- The serialized response body of the `/extract` route. -/
structure ApiData where
  title : Option String
  price : Option String
  image : Option String
  description : Option String
  url : String
deriving DecidableEq, Repr

structure ApiBody where
  success : Bool
  error : Option String
  message : Option String
  data : Option ApiData
deriving DecidableEq, Repr

/-- `api_extract_product` (`app.py` lines 146-193): status code and body.
`urlParam` is `request.args.get('url')`; `if not url` rejects both a missing
and an empty parameter. -/
def api_extract_product (extract : String → Option ProductInfo)
    (urlParam : Option String) : Nat × ApiBody :=
  match urlParam with
  | none =>
    (400, { success := false
            error := some "Missing required parameter: url"
            message := some "Please provide a product URL"
            data := none })
  | some url =>
    if url = "" then
      (400, { success := false
              error := some "Missing required parameter: url"
              message := some "Please provide a product URL"
              data := none })
    else
      match extract url with
      | some pi =>
        if truthyOpt pi.image || truthyOpt pi.title then
          (200, { success := true
                  error := none
                  message := none
                  data := some { title := pi.title, price := pi.price,
                                 image := pi.image, description := pi.description,
                                 url := pi.url } })
        else
          (404, { success := false
                  error := some "Could not extract product information"
                  message := some "The site may be blocking scrapers or the URL is invalid"
                  data := some { title := none, price := none, image := none,
                                 description := none, url := url } })
      | none =>
        (404, { success := false
                error := some "Could not extract product information"
                message := some "The site may be blocking scrapers or the URL is invalid"
                data := some { title := none, price := none, image := none,
                               description := none, url := url } })

/-- Modelled from the spec: `urllib.parse.urljoin` is an external library
collaborator absent from the repository.  This model covers the references the
spec exercises — absolute URLs are kept, a root-relative path replaces the
base's path (e.g. base `https://shop.example/p/1` + `/img/a.jpg` →
`https://shop.example/img/a.jpg`), and any other reference replaces the last
path segment. -/
def splitSlash : List Char → List (List Char)
  | [] => [[]]
  | c :: cs =>
    if c = '/' then [] :: splitSlash cs
    else
      match splitSlash cs with
      | [] => [[c]]
      | p :: ps => (c :: p) :: ps

def joinSlash : List (List Char) → List Char
  | [] => []
  | [p] => p
  | p :: q :: ps => p ++ '/' :: joinSlash (q :: ps)

def urljoin (base rel : String) : String :=
  if pyContains rel "://" then rel
  else
    match rel.toList with
    | '/' :: _ => String.mk (joinSlash ((splitSlash base.toList).take 3) ++ rel.toList)
    | _ => String.mk (joinSlash (splitSlash base.toList).dropLast ++ '/' :: rel.toList)

/-! ## Helper lemmas -/

theorem firstSome_append_none {α : Type} (l₁ l₂ : List (Option α))
    (h : ∀ x ∈ l₁, x = none) : firstSome (l₁ ++ l₂) = firstSome l₂ := by
  induction l₁ with
  | nil => rfl
  | cons a as ih =>
    have ha := h a (by simp)
    subst ha
    simp only [List.cons_append, firstSome]
    exact ih (fun x hx => h x (by simp [hx]))

theorem m4loop_cons_dead (x : Option Element) (rest : List (Option Element))
    (h : m4loop [x] = none) : m4loop (x :: rest) = m4loop rest := by
  match x with
  | none => rfl
  | some e =>
    simp only [m4loop] at h ⊢
    cases hm : m4text e with
    | none => simp only [hm]
    | some t =>
      simp only [hm] at h ⊢
      by_cases ht : t = ""
      · simp only [if_pos ht]
      · simp only [if_neg ht] at h ⊢
        cases hr : reSearch pat5 t with
        | none => simp only [hr]
        | some m =>
          simp only [hr] at h
          exact absurd h (by simp)

theorem m4loop_append_dead (pre l : List (Option Element))
    (h : ∀ x ∈ pre, m4loop [x] = none) : m4loop (pre ++ l) = m4loop l := by
  induction pre with
  | nil => rfl
  | cons a as ih =>
    rw [List.cons_append, m4loop_cons_dead a _ (h a (by simp))]
    exact ih (fun x hx => h x (by simp [hx]))

theorem evalBlock_dollar (oj : Option Json) (r : String)
    (h : evalBlock oj = some r) : ∃ t, r = "$" ++ t := by
  cases oj with
  | none => exact absurd h (by simp [evalBlock])
  | some d =>
    simp only [evalBlock] at h
    split at h
    · split at h
      · obtain ⟨p, -, hp⟩ := Option.map_eq_some'.mp h
        exact ⟨jstr p, hp.symm⟩
      · obtain ⟨p, -, hp⟩ := Option.map_eq_some'.mp h
        exact ⟨jstr p, hp.symm⟩
      · exact absurd h (by simp)
    · exact absurd h (by simp)

theorem method1Blocks_dollar (pj : String → Option Json) (blocks : List Element)
    (r : String) (h : method1Blocks pj blocks = some r) : ∃ t, r = "$" ++ t := by
  induction blocks with
  | nil => exact absurd h (by simp [method1Blocks, firstSome])
  | cons b bs ih =>
    simp only [method1Blocks, List.map_cons] at h ih
    cases hb : evalBlock (pj b.text) with
    | some v =>
      rw [hb] at h
      simp only [firstSome] at h
      cases h
      exact evalBlock_dollar _ _ hb
    | none =>
      rw [hb] at h
      simp only [firstSome] at h
      exact ih h

theorem method3Scan_dollar (pats : List Pattern) (text r : String)
    (h : firstSome (pats.map (fun p => (reSearch p text).map (fun m => "$" ++ m.2))) = some r) :
    ∃ t, r = "$" ++ t := by
  induction pats with
  | nil => exact absurd h (by simp [firstSome])
  | cons p ps ih =>
    simp only [List.map_cons] at h
    cases hp : reSearch p text with
    | some m =>
      rw [hp] at h
      simp only [Option.map_some', firstSome] at h
      cases h
      exact ⟨m.2, rfl⟩
    | none =>
      rw [hp] at h
      simp only [Option.map_none', firstSome] at h
      exact ih h

/-! ## Demo inputs used by witnesses and counterexamples -/

/-- A `json.loads` collaborator that parses only the demo JSON-LD block. -/
def pjDemo : String → Option Json := fun s =>
  if s = "\x7b\"offers\": \x7b\"price\": 12.5\x7d\x7d" then
    some (Json.obj [("offers", Json.obj [("price", Json.num "12.5")])])
  else none

/-- A `json.loads` collaborator on pages without structured data. -/
def pjNone : String → Option Json := fun _ => none

def goodScript : Element :=
  ⟨"script", [("type", "application/ld+json")], "\x7b\"offers\": \x7b\"price\": 12.5\x7d\x7d"⟩

def badScript : Element :=
  ⟨"script", [("type", "application/ld+json")], "not json"⟩

/-! ## C1 — JSON-LD price blocks in document order, parse failures skipped -/

/-- C1: the JSON-LD script blocks are visited in document order; the first
block that parses and whose (list-headed) value is a mapping whose `offers`
mapping contains `price` makes Method 1 return `"$" ++ price`, and a block
whose text fails to parse is skipped without aborting the remaining blocks. -/
theorem jsonld_price_first_hit (pj : String → Option Json) (soup : List Element)
    (pre post : List Element) (b : Element) (j : Json)
    (fields ofields : List (String × Json)) (p : Json)
    (hs : scriptBlocks soup = pre ++ b :: post)
    (hpre : ∀ x ∈ pre, evalBlock (pj x.text) = none)
    (hb : pj b.text = some j)
    (hh : headJson j = some (Json.obj fields))
    (ho : List.lookup "offers" fields = some (Json.obj ofields))
    (hp : List.lookup "price" ofields = some p) :
    method1 pj soup = some ("$" ++ jstr p) ∧
    (∀ bad rest, pj bad.text = none →
      method1Blocks pj (bad :: rest) = method1Blocks pj rest) := by
  constructor
  · have hev : evalBlock (pj b.text) = some ("$" ++ jstr p) := by
      rw [hb]
      simp only [evalBlock, hh, ho, hp, Option.map_some']
    unfold method1 method1Blocks
    rw [hs, List.map_append]
    rw [firstSome_append_none _ _
      (by intro x hx; obtain ⟨a, ha, rfl⟩ := List.mem_map.mp hx; exact hpre a ha)]
    simp only [List.map_cons, hev, firstSome]
  · intro bad rest hbad
    unfold method1Blocks
    simp only [List.map_cons, hbad]
    rfl

/-- C1 witness: the block `{"offers":{"price": 12.5}}` yields `"$12.5"`, and an
unparseable block ahead of it is skipped. -/
theorem jsonld_price_first_hit_w :
    method1 pjDemo [goodScript] = some "$12.5" ∧
    method1Blocks pjDemo [badScript, goodScript] = method1Blocks pjDemo [goodScript] := by
  have h := jsonld_price_first_hit pjDemo [goodScript] [] [] goodScript
    (Json.obj [("offers", Json.obj [("price", Json.num "12.5")])])
    [("offers", Json.obj [("price", Json.num "12.5")])]
    [("price", Json.num "12.5")] (Json.num "12.5")
    rfl (by simp) rfl rfl rfl rfl
  exact ⟨h.1, h.2 badScript [goodScript] rfl⟩

/-! ## C2 — title resolver short-circuit -/

def ogTitleEmptyMeta : Element := ⟨"meta", [("property", "og:title"), ("content", "")], ""⟩

def soupT2 : List Element := [ogTitleEmptyMeta, ⟨"title", [], "Fallback"⟩]

/-- C2 counterexample: an `og:title` meta element is present in the tree, but
its `content` is the empty string, so the resolver does not return that content
verbatim — it falls through to the `<title>` text. -/
theorem og_title_empty_content_cex :
    List.find? (metaPropIs "og:title") soupT2 = some ogTitleEmptyMeta ∧
    attrLookup ogTitleEmptyMeta "content" = some "" ∧
    extractTitle soupT2 = some "Fallback" ∧
    (some "Fallback" : Option String) ≠ some "" := by
  refine ⟨?_, ?_, ?_, ?_⟩ <;> decide

/-- C2 (amended): whenever the first `og:title` meta element has a non-empty
`content`, the title equals that content verbatim regardless of `<title>` or
`<h1>`; otherwise a present `<title>` supplies its trimmed text (even when
empty), and only in its absence does the first `<h1>`'s trimmed text apply. -/
theorem title_resolver_guards (soup : List Element) :
    (∀ e c, List.find? (metaPropIs "og:title") soup = some e →
      attrLookup e "content" = some c → c ≠ "" → extractTitle soup = some c) ∧
    (∀ t, ogContent "og:title" soup = none →
      List.find? (fun e => e.name == "title") soup = some t →
      extractTitle soup = some (pyStrip t.text)) ∧
    (∀ h1e, ogContent "og:title" soup = none →
      List.find? (fun e => e.name == "title") soup = none →
      List.find? (fun e => e.name == "h1") soup = some h1e →
      extractTitle soup = some (pyStrip h1e.text)) := by
  refine ⟨?_, ?_, ?_⟩
  · intro e c he hc hne
    simp only [extractTitle, ogContent, he, hc, if_neg hne]
  · intro t hog ht
    simp only [extractTitle, hog, ht]
  · intro h1e hog ht hh
    simp only [extractTitle, hog, ht, hh]

def soupT1 : List Element :=
  [⟨"meta", [("property", "og:title"), ("content", "OG Name")], ""⟩,
   ⟨"title", [], "Doc Title"⟩, ⟨"h1", [], "Heading"⟩]

/-- C2 witness: with `og:title`, `<title>` and `<h1>` all present, the
`og:title` content wins verbatim. -/
theorem title_resolver_guards_w : extractTitle soupT1 = some "OG Name" :=
  (title_resolver_guards soupT1).1 ⟨"meta", [("property", "og:title"), ("content", "OG Name")], ""⟩
    "OG Name" (by decide) (by decide) (by decide)

/-! ## C3 — which image sources resolve relative URLs -/

def ogImageRelMeta : Element := ⟨"meta", [("property", "og:image"), ("content", "/img/a.jpg")], ""⟩

def soupI2 : List Element := [ogImageRelMeta]

/-- C3 counterexample: a relative `og:image` content is assigned verbatim,
not resolved against the request URL as the claim demands. -/
theorem og_image_relative_cex :
    extractImage urljoin "https://shop.example/p/1" soupI2 = some "/img/a.jpg" ∧
    urljoin "https://shop.example/p/1" "/img/a.jpg" = "https://shop.example/img/a.jpg" ∧
    (some "/img/a.jpg" : Option String) ≠ some "https://shop.example/img/a.jpg" := by
  refine ⟨?_, ?_, ?_⟩ <;> decide

/-- C3 (amended): only the `<img>`-src source resolves relative URLs — the
first filtered `<img>`'s src is passed through `urljoin` with the request URL
as base, while `og:image` (and `twitter:image`) contents are assigned
verbatim. -/
theorem image_resolution_sources (uj : String → String → String) (url : String)
    (soup : List Element) :
    (∀ e c, List.find? (metaPropIs "og:image") soup = some e →
      attrLookup e "content" = some c → c ≠ "" → extractImage uj url soup = some c) ∧
    (∀ e c, ogContent "og:image" soup = none →
      List.find? (metaNameIs "twitter:image") soup = some e →
      attrLookup e "content" = some c → c ≠ "" → extractImage uj url soup = some c) ∧
    (∀ i rest s, ogContent "og:image" soup = none →
      metaNameContent "twitter:image" soup = none →
      List.filter imgFilter (List.filter (fun e => e.name == "img") soup) = i :: rest →
      attrLookup i "src" = some s →
      extractImage uj url soup = some (uj url s)) := by
  refine ⟨?_, ?_, ?_⟩
  · intro e c he hc hne
    simp only [extractImage, ogContent, he, hc, if_neg hne]
  · intro e c hog he hc hne
    simp only [extractImage, hog, metaNameContent, he, hc, if_neg hne]
  · intro i rest s hog htw hfil hsrc
    simp only [extractImage, hog, htw, imageFromImgs, hfil, hsrc, Option.map_some']

def soupI1 : List Element := [⟨"img", [("src", "/img/a.jpg")], ""⟩]

def soupTw : List Element := [⟨"meta", [("name", "twitter:image"), ("content", "/t.jpg")], ""⟩]

/-- C3 witness: base `https://shop.example/p/1` plus `src="/img/a.jpg"` gives
`https://shop.example/img/a.jpg` through the `<img>`-src source, while a
relative `twitter:image` content is assigned verbatim. -/
theorem image_resolution_sources_w :
    extractImage urljoin "https://shop.example/p/1" soupI1 = some "https://shop.example/img/a.jpg" ∧
    extractImage urljoin "https://shop.example/p/1" soupTw = some "/t.jpg" := by
  constructor
  · have h := (image_resolution_sources urljoin "https://shop.example/p/1" soupI1).2.2
      ⟨"img", [("src", "/img/a.jpg")], ""⟩ [] "/img/a.jpg"
      (by decide) (by decide) (by decide) (by decide)
    rw [h]
    decide
  · exact (image_resolution_sources urljoin "https://shop.example/p/1" soupTw).2.1
      ⟨"meta", [("name", "twitter:image"), ("content", "/t.jpg")], ""⟩ "/t.jpg"
      (by decide) (by decide) (by decide) (by decide)

/-! ## C4 — currency-symbol formatting of the price -/

def spanPlain1999 : Element := ⟨"span", [("itemprop", "price")], "19.99"⟩

def soupP4 : List Element := [spanPlain1999]

/-- C4 counterexample: Methods 1-3 fail and Method 4 extracts bare `19.99`
from a `<span itemprop="price">` — the assigned price carries no currency
symbol at all. -/
theorem method4_no_currency_cex :
    extractPrice pjNone soupP4 "" = some "19.99" ∧
    (∀ t, ("19.99" : String) ≠ "$" ++ t) ∧
    (∀ t, ("19.99" : String) ≠ "€" ++ t) ∧
    (∀ t, ("19.99" : String) ≠ "£" ++ t) := by
  refine ⟨by decide, ?_, ?_, ?_⟩ <;>
    · intro t h
      have hd := congrArg String.data h
      rw [String.data_append] at hd
      have h19 : ("19.99" : String).data = ['1', '9', '.', '9', '9'] := rfl
      rw [h19] at hd
      simp at hd

/-- C4 (amended): Methods 1, 2 and 3 always prepend `"$"` to the extracted
value; Method 4's result is the raw matched text trimmed, which carries a
currency symbol only when the scanned element text itself did. -/
theorem price_methods_dollar (pj : String → Option Json) (soup : List Element)
    (text : String) :
    (∀ r, method1 pj soup = some r → ∃ t, r = "$" ++ t) ∧
    (∀ r, method2 soup = some r → ∃ t, r = "$" ++ t) ∧
    (∀ r, method3 text = some r → ∃ t, r = "$" ++ t) := by
  refine ⟨?_, ?_, ?_⟩
  · intro r h
    exact method1Blocks_dollar pj _ r h
  · intro r h
    obtain ⟨c, -, hc⟩ := Option.map_eq_some'.mp h
    exact ⟨c, hc.symm⟩
  · intro r h
    exact method3Scan_dollar _ text r h

def soupP2 : List Element :=
  [⟨"meta", [("property", "product:price:amount"), ("content", "5")], ""⟩]

/-- C4 witness: each of Methods 1-3 produces a `"$"`-led value on a concrete
page. -/
theorem price_methods_dollar_w :
    (∃ t, ("$12.5" : String) = "$" ++ t) ∧ (∃ t, ("$5" : String) = "$" ++ t) ∧
    (∃ t, ("$7" : String) = "$" ++ t) :=
  ⟨(price_methods_dollar pjDemo [goodScript] "").1 "$12.5" (by decide),
   (price_methods_dollar pjDemo soupP2 "").2.1 "$5" (by decide),
   (price_methods_dollar pjDemo [] "\"price\": 7").2.2 "$7" (by decide)⟩

/-! ## C5 — Method 4's selector scan -/

def spanCallForPrice : Element := ⟨"span", [("itemprop", "price")], "Call for price"⟩

def metaPrice1999 : Element := ⟨"meta", [("itemprop", "price"), ("content", "19.99")], ""⟩

def soupP5 : List Element := [spanCallForPrice, metaPrice1999]

/-- C5 counterexample: the first found candidate (the `<span itemprop="price">`)
yields no pattern match, yet the scan does not stop there — the later `<meta>`
candidate supplies the price, so the first found element alone does not
determine the outcome. -/
theorem method4_first_found_cex :
    List.find? spanItempropPrice soupP5 = some spanCallForPrice ∧
    reSearch pat5 "Call for price" = none ∧
    extractPrice pjNone soupP5 "" = some "19.99" := by
  refine ⟨?_, ?_, ?_⟩ <;> decide

/-- C5 (amended): when Methods 1-3 fail, the five selector candidates are tried
in their fixed order; a found element whose text (meta `content`, else
`get_text()`) is empty or does not match `[\$€£]?\s*(\d+[,.]?\d*\.?\d*)` is
passed over, and the first candidate whose text matches yields the entire
match trimmed of whitespace. -/
theorem method4_scan (pre post : List (Option Element)) (e : Element) (t w g : String)
    (hpre : ∀ x ∈ pre, m4loop [x] = none)
    (ht : m4text e = some t) (hne : t ≠ "")
    (hm : reSearch pat5 t = some (w, g)) :
    m4loop (pre ++ some e :: post) = some (pyStrip w) ∧
    (∀ pj soup text, method1 pj soup = none → method2 soup = none →
      method3 text = none → extractPrice pj soup text = method4 soup) := by
  constructor
  · rw [m4loop_append_dead pre _ hpre]
    simp only [m4loop, ht, if_neg hne, hm]
  · intro pj soup text h1 h2 h3
    unfold extractPrice
    rw [h1, h2, h3]

/-- C5 witness: a dead first candidate is passed over and a `<meta>` candidate
matches via its `content` attribute, trimmed whole match returned. -/
theorem method4_scan_w :
    m4loop [none, some ⟨"meta", [("itemprop", "price"), ("content", "$12.34 each")], ""⟩] =
      some "$12.34" := by
  have h := method4_scan [none] []
    ⟨"meta", [("itemprop", "price"), ("content", "$12.34 each")], ""⟩
    "$12.34 each" "$12.34" "12.34" (by decide) (by decide) (by decide) (by decide)
  exact h.1

/-! ## C6 — raw-text pattern scan -/

/-- C6: when Methods 1 and 2 yield nothing, pattern 1 does not match the raw
text and pattern 2 (`"currentPrice":\s*(\d+\.?\d*)`) matches with capture
group `g`, the price resolver returns `"$" ++ g`; the four patterns are tried
in order and the first match's first capture group is used. -/
theorem raw_text_price_scan (pj : String → Option Json) (soup : List Element)
    (text w g : String)
    (h1 : method1 pj soup = none) (h2 : method2 soup = none)
    (hp1 : reSearch pat1 text = none) (hp2 : reSearch pat2 text = some (w, g)) :
    extractPrice pj soup text = some ("$" ++ g) := by
  unfold extractPrice
  rw [h1, h2]
  unfold method3
  simp only [List.map_cons, hp1, hp2, Option.map_none', Option.map_some', firstSome]

/-- C6 witness: raw text containing `"currentPrice": 9.99` yields `"$9.99"`. -/
theorem raw_text_price_scan_w :
    extractPrice pjNone [] "see \"currentPrice\": 9.99 end" = some "$9.99" := by
  have h := raw_text_price_scan pjNone [] "see \"currentPrice\": 9.99 end"
    "\"currentPrice\": 9.99" "9.99" (by decide) (by decide) (by decide) (by decide)
  exact h

/-! ## C7 — description truncation -/

/-- C7: a description sourced from the `itemprop="description"` element's text
is stripped then truncated to at most 500 characters, while one sourced from
the `og:description` or `description` meta tag's `content` is assigned
verbatim, with no length bound. -/
theorem description_bounds (soup : List Element) :
    (∀ e c, List.find? (metaPropIs "og:description") soup = some e →
      attrLookup e "content" = some c → c ≠ "" → extractDescription soup = some c) ∧
    (∀ c, ogContent "og:description" soup = none →
      metaNameContent "description" soup = some c → extractDescription soup = some c) ∧
    (∀ d, ogContent "og:description" soup = none →
      metaNameContent "description" soup = none →
      List.find? itempropDescIs soup = some d →
      extractDescription soup = some (pyTruncate (pyStrip d.text) 500) ∧
        (pyTruncate (pyStrip d.text) 500).length ≤ 500) := by
  refine ⟨?_, ?_, ?_⟩
  · intro e c he hc hne
    simp only [extractDescription, ogContent, he, hc, if_neg hne]
  · intro c hog hm
    simp only [extractDescription, hog, hm]
  · intro d hog hm hd
    refine ⟨by simp only [extractDescription, hog, hm, hd], ?_⟩
    show ((pyStrip d.text).toList.take 500).length ≤ 500
    exact List.length_take_le 500 _

def soupD1 : List Element := [⟨"div", [("itemprop", "description")], "  hello  "⟩]

/-- C7 witness: an itemprop-sourced description is stripped, truncated and
within the bound. -/
theorem description_bounds_w :
    extractDescription soupD1 = some "hello" ∧ ("hello" : String).length ≤ 500 := by
  have h := (description_bounds soupD1).2.2 ⟨"div", [("itemprop", "description")], "  hello  "⟩
    (by decide) (by decide) (by decide)
  refine ⟨?_, by decide⟩
  rw [h.1]
  decide

/-! ## C8 — engine failure signal -/

def fetchFail : String → Option Response := fun _ => none

def fetch304 : String → Option Response :=
  fun _ => some ⟨304, [⟨"title", [], "Prod"⟩], ""⟩

def fetch500 : String → Option Response := fun _ => some ⟨500, [], ""⟩

/-- C8 counterexample: a final response with the non-2xx status 304 is not
rejected by `raise_for_status()` (which raises only for 400-599), so the
engine does not return a failure signal — it extracts a record from the
body. -/
theorem non2xx_status_cex :
    extract_product_info fetch304 pjNone urljoin "http://x" =
      some ⟨none, some "Prod", none, none, "http://x"⟩ ∧
    ¬(200 ≤ 304 ∧ 304 ≤ 299) := by
  refine ⟨by decide, by decide⟩

/-- C8 (amended): on a fetch network error, or a response status in 400-599
(the statuses `raise_for_status` rejects), the engine returns the single
failure signal `none`; on any other status it returns one complete record
echoing the input URL — never a partial record, and no exception escapes
(the embedding is a total function).  Non-2xx statuses outside 400-599, such
as 304, are not treated as failures. -/
theorem engine_failure_signal (fetch : String → Option Response)
    (pj : String → Option Json) (uj : String → String → String) (url : String) :
    (fetch url = none → extract_product_info fetch pj uj url = none) ∧
    (∀ resp, fetch url = some resp → 400 ≤ resp.status → resp.status < 600 →
      extract_product_info fetch pj uj url = none) ∧
    (∀ resp, fetch url = some resp → ¬(400 ≤ resp.status ∧ resp.status < 600) →
      ∃ r, extract_product_info fetch pj uj url = some r ∧ r.url = url) := by
  refine ⟨?_, ?_, ?_⟩
  · intro h
    simp only [extract_product_info, h]
  · intro resp h h4 h6
    simp only [extract_product_info, h]
    rw [if_pos ⟨h4, h6⟩]
  · intro resp h hn
    simp only [extract_product_info, h]
    rw [if_neg hn]
    exact ⟨_, rfl, rfl⟩

/-- C8 witness: a network error and a 500 status each give the failure signal;
a 200-range-free 304 still yields a complete record with the echoed URL. -/
theorem engine_failure_signal_w :
    extract_product_info fetchFail pjNone urljoin "http://x" = none ∧
    extract_product_info fetch500 pjNone urljoin "http://x" = none ∧
    (∃ r, extract_product_info fetch304 pjNone urljoin "http://x" = some r ∧
      r.url = "http://x") :=
  ⟨(engine_failure_signal fetchFail pjNone urljoin "http://x").1 rfl,
   (engine_failure_signal fetch500 pjNone urljoin "http://x").2.1 ⟨500, [], ""⟩
     rfl (by decide) (by decide),
   (engine_failure_signal fetch304 pjNone urljoin "http://x").2.2
     ⟨304, [⟨"title", [], "Prod"⟩], ""⟩ rfl (by decide)⟩

/-! ## C9 — the /extract route contract -/

def extractEmptyTitle : String → Option ProductInfo :=
  fun u => some ⟨none, some "", none, none, u⟩

/-- C9 counterexample: a record whose title is present (the empty string) and
whose image is absent does not have "both title and image absent", so the
claim requires 200; the handler's truthiness test returns 404. -/
theorem anchor_presence_cex :
    extractEmptyTitle "http://x" = some ⟨none, some "", none, none, "http://x"⟩ ∧
    (some "" : Option String) ≠ none ∧
    (api_extract_product extractEmptyTitle (some "http://x")).1 = 404 := by
  refine ⟨rfl, by decide, by decide⟩

/-- C9 (amended): a missing `url` parameter gives 400 with the exact literal
error body (the engine is never consulted); an engine failure, or a record
whose title and image are both falsy (absent or empty), gives 404 with
`success:false` and an all-null data payload echoing the url; a record with a
truthy anchor field gives 200 with `success:true` and the record's five
fields. -/
theorem extract_route_contract (extract : String → Option ProductInfo) :
    (api_extract_product extract none =
      (400, ⟨false, some "Missing required parameter: url",
             some "Please provide a product URL", none⟩)) ∧
    (∀ url, url ≠ "" → extract url = none →
      api_extract_product extract (some url) =
        (404, ⟨false, some "Could not extract product information",
               some "The site may be blocking scrapers or the URL is invalid",
               some ⟨none, none, none, none, url⟩⟩)) ∧
    (∀ url pi, url ≠ "" → extract url = some pi →
      truthyOpt pi.image = false → truthyOpt pi.title = false →
      api_extract_product extract (some url) =
        (404, ⟨false, some "Could not extract product information",
               some "The site may be blocking scrapers or the URL is invalid",
               some ⟨none, none, none, none, url⟩⟩)) ∧
    (∀ url pi, url ≠ "" → extract url = some pi →
      (truthyOpt pi.image || truthyOpt pi.title) = true →
      api_extract_product extract (some url) =
        (200, ⟨true, none, none,
               some ⟨pi.title, pi.price, pi.image, pi.description, pi.url⟩⟩)) := by
  refine ⟨rfl, ?_, ?_, ?_⟩
  · intro url hu hx
    simp only [api_extract_product, if_neg hu, hx]
  · intro url pi hu hx himg htit
    simp only [api_extract_product, if_neg hu, hx, himg, htit, Bool.or_false,
      Bool.false_eq_true, if_false]
  · intro url pi hu hx hanchor
    simp only [api_extract_product, if_neg hu, hx, hanchor, if_true]

def extractNothing : String → Option ProductInfo := fun _ => none

def extractGood : String → Option ProductInfo :=
  fun u => some ⟨some "https://img.example/a.jpg", some "T", some "$1", some "D", u⟩

/-- C9 witness: the three envelopes at concrete inputs. -/
theorem extract_route_contract_w :
    api_extract_product extractNothing none =
      (400, ⟨false, some "Missing required parameter: url",
             some "Please provide a product URL", none⟩) ∧
    api_extract_product extractNothing (some "http://x") =
      (404, ⟨false, some "Could not extract product information",
             some "The site may be blocking scrapers or the URL is invalid",
             some ⟨none, none, none, none, "http://x"⟩⟩) ∧
    api_extract_product extractGood (some "http://x") =
      (200, ⟨true, none, none,
             some ⟨some "T", some "$1", some "https://img.example/a.jpg", some "D",
                   "http://x"⟩⟩) :=
  ⟨(extract_route_contract extractNothing).1,
   (extract_route_contract extractNothing).2.1 "http://x" (by decide) rfl,
   (extract_route_contract extractGood).2.2.2 "http://x" _ (by decide) rfl (by decide)⟩

/-! ## C10 — anchor check is by truthiness -/

/-- C10: for every engine record whose image is absent and whose title is the
empty string, the handler returns the 404 failure envelope with all-null data,
even though the title field is set. -/
theorem anchor_truthiness_404 (extract : String → Option ProductInfo)
    (url : String) (pi : ProductInfo) (hu : url ≠ "")
    (hx : extract url = some pi) (himg : pi.image = none) (htit : pi.title = some "") :
    api_extract_product extract (some url) =
      (404, ⟨false, some "Could not extract product information",
             some "The site may be blocking scrapers or the URL is invalid",
             some ⟨none, none, none, none, url⟩⟩) := by
  simp only [api_extract_product, if_neg hu, hx, himg, htit, truthyOpt]
  simp

def extractC10 : String → Option ProductInfo :=
  fun u => some ⟨none, some "", some "$9", some "d", u⟩

/-- C10 witness: a record with `title = ""` and no image gets the 404
envelope. -/
theorem anchor_truthiness_404_w :
    api_extract_product extractC10 (some "http://e") =
      (404, ⟨false, some "Could not extract product information",
             some "The site may be blocking scrapers or the URL is invalid",
             some ⟨none, none, none, none, "http://e"⟩⟩) :=
  anchor_truthiness_404 extractC10 "http://e" ⟨none, some "", some "$9", some "d", "http://e"⟩
    (by decide) rfl rfl rfl
